import Mathlib

/-!
Shallow embedding of `sprocketnes/src/ppu.rs` (PPU registers, VRAM address
space, and the CPU-bus register dispatcher), together with theorems checking
the natural-language specification against it.

Bytes and 16-bit words are modelled as `Nat`, with `% 0x10000` written out
wherever the source's `u16` arithmetic can wrap.  Functions that can `fail`
in the Rust source (dynamic failure via `fail ~"..."`, or an out-of-bounds
vector index) return `Except PpuErr _`; functions the source cannot fail in
return `.ok` on every path.
-/

namespace Sprocketnes

/-- The distinct dynamic failures of `ppu.rs`:
`invalidAddress` is `fail ~"invalid VRAM read"` (PpuMem::loadb, addr ≥ 0x4000);
`unimplemented` is `fail ~"OAM write unimplemented"` (Ppu::storeb, offset 4);
`invalidPpuRegister` is the `debug_assert` in `Ppu::storeb`;
`canTHappen` is the unreachable `fail ~"can't happen"` match arm;
`indexOutOfBounds` is a Rust out-of-bounds vector index (`self.rom.chr[addr]`). -/
inductive PpuErr where
  | invalidAddress
  | unimplemented
  | invalidPpuRegister
  | canTHappen
  | indexOutOfBounds
  deriving DecidableEq

/-- `enum SpriteSize` from the source. -/
inductive SpriteSize where
  | SpriteSize8x8
  | SpriteSize8x16
  deriving DecidableEq

/-- `PPUCTRL` is a one-byte wrapper (`struct PpuCtrl(u8)`); we model the byte
as a `Nat` and each accessor as a function of it. -/
def PpuCtrl.base_nametable_addr (c : Nat) : Nat := 0x2000 + (c &&& 0x3) * 0x400

/-- `fn vram_addr_increment`: `if (*self & 0x04) == 0 { 0 } else { 32 }`. -/
def PpuCtrl.vram_addr_increment (c : Nat) : Nat := if c &&& 0x04 == 0 then 0 else 32

def PpuCtrl.sprite_pattern_table_addr (c : Nat) : Nat := if c &&& 0x08 == 0 then 0 else 0x1000

def PpuCtrl.background_pattern_table_addr (c : Nat) : Nat := if c &&& 0x10 == 0 then 0 else 0x1000

def PpuCtrl.sprite_size (c : Nat) : SpriteSize :=
  if c &&& 0x20 == 0 then .SpriteSize8x8 else .SpriteSize8x16

def PpuCtrl.vblank_nmi (c : Nat) : Bool := c &&& 0x80 != 0

/-- `PPUMASK` accessors (`struct PpuMask(u8)`). -/
def PpuMask.grayscale (m : Nat) : Bool := m &&& 0x01 != 0

def PpuMask.show_background_on_left (m : Nat) : Bool := m &&& 0x02 != 0

def PpuMask.show_sprites_on_left (m : Nat) : Bool := m &&& 0x04 != 0

def PpuMask.show_background (m : Nat) : Bool := m &&& 0x08 != 0

def PpuMask.show_sprites (m : Nat) : Bool := m &&& 0x10 != 0

def PpuMask.intensify_reds (m : Nat) : Bool := m &&& 0x20 != 0

def PpuMask.intensify_greens (m : Nat) : Bool := m &&& 0x40 != 0

def PpuMask.intensity_blues (m : Nat) : Bool := m &&& 0x80 != 0

/-- `PpuStatus::set_sprite_overflow`: `**self | 0x20` / `**self & !0x20`
(`!0x20` on `u8` is `0xdf`). -/
def PpuStatus.set_sprite_overflow (s : Nat) (val : Bool) : Nat :=
  if val then s ||| 0x20 else s &&& 0xdf

/-- `PpuStatus::set_sprite_zero_hit` (`!0x40` on `u8` is `0xbf`). -/
def PpuStatus.set_sprite_zero_hit (s : Nat) (val : Bool) : Nat :=
  if val then s ||| 0x40 else s &&& 0xbf

/-- `PpuStatus::set_in_vblank` (`!0x80` on `u8` is `0x7f`). -/
def PpuStatus.set_in_vblank (s : Nat) (val : Bool) : Nat :=
  if val then s ||| 0x80 else s &&& 0x7f

/-- `enum PpuScrollDir { XDir, YDir }`. -/
inductive PpuScrollDir where
  | XDir
  | YDir
  deriving DecidableEq

/-- `struct PpuScroll { x: u8, y: u8, next: PpuScrollDir }`. -/
structure PpuScroll where
  x : Nat
  y : Nat
  next : PpuScrollDir
  deriving DecidableEq

/-- `struct Regs`: ctrl/mask/status bytes, `oam_addr` byte, scroll latch,
16-bit VRAM cursor `addr`. -/
structure Regs where
  ctrl : Nat
  mask : Nat
  status : Nat
  oam_addr : Nat
  scroll : PpuScroll
  addr : Nat
  deriving DecidableEq

/-- `struct PpuMem`: a borrowed CHR byte sequence (`rom.chr`, modelled as a
list so that its length is visible), a 0x1000-byte nametable array and a
0x20-byte palette array.  The two fixed-size arrays are modelled as index
functions; the source only ever reads them at masked indices
(`& 0x0fff` resp. `& 0x1f`), which stay inside the array bounds. -/
structure PpuMem where
  chr : List Nat
  nametables : Nat → Nat
  palette : Nat → Nat

/-- `PpuMem::loadb`: pattern tables read straight from `rom.chr` (a Rust
index expression, so out of bounds is a dynamic failure), nametable area is
masked with `0x0fff`, palette area with `0x1f`; anything at `0x4000` or above
is `fail ~"invalid VRAM read"`. -/
def PpuMem.loadb (m : PpuMem) (addr : Nat) : Except PpuErr Nat :=
  if addr < 0x2000 then
    match m.chr[addr]? with
    | some b => .ok b
    | none => .error .indexOutOfBounds
  else if addr < 0x3f00 then .ok (m.nametables (addr &&& 0x0fff))
  else if addr < 0x4000 then .ok (m.palette (addr &&& 0x1f))
  else .error .invalidAddress

/-- `PpuMem::storeb`: writes below `0x2000` are ignored (CHR-ROM), the
nametable and palette areas update one masked slot, and every other address
falls off the end of the `if` chain, doing nothing.  No path fails. -/
def PpuMem.storeb (m : PpuMem) (addr val : Nat) : Except PpuErr PpuMem :=
  if addr < 0x2000 then .ok m
  else if addr < 0x3f00 then
    .ok { m with nametables := fun i => if i = addr &&& 0x0fff then val else m.nametables i }
  else if addr < 0x4000 then
    .ok { m with palette := fun i => if i = addr &&& 0x1f then val else m.palette i }
  else .ok m

/-- `PpuMem::loadw`: `loadb(addr) | (loadb(addr + 1) << 8)` with the `+ 1`
taken in `u16`. -/
def PpuMem.loadw (m : PpuMem) (addr : Nat) : Except PpuErr Nat := do
  let lo ← m.loadb addr
  let hi ← m.loadb ((addr + 1) % 0x10000)
  pure (lo ||| (hi <<< 8))

/-- `PpuMem::storew`: the body is the comment `// TODO` — it does nothing
and returns successfully. -/
def PpuMem.storew (m : PpuMem) (_addr _val : Nat) : Except PpuErr PpuMem :=
  .ok m

/-- `struct Ppu<VM,OM>` with the VRAM parameter instantiated at `PpuMem`
(the claims are about the chip driving its VRAM address space); the OAM
backend stays a type parameter as in the source. -/
structure Ppu (OM : Type) where
  regs : Regs
  vram : PpuMem
  oam : OM

/-- `Ppu::update_ppuscroll`: route `val` into `x` or `y` by the toggle and
flip the toggle. -/
def Ppu.update_ppuscroll {OM : Type} (p : Ppu OM) (val : Nat) : Ppu OM :=
  match p.regs.scroll.next with
  | .XDir =>
      { p with regs := { p.regs with
          scroll := { x := val, y := p.regs.scroll.y, next := .YDir } } }
  | .YDir =>
      { p with regs := { p.regs with
          scroll := { x := p.regs.scroll.x, y := val, next := .XDir } } }

/-- `Ppu::update_ppuaddr`: `self.regs.addr = (self.regs.addr << 8) | (val as u16)`,
the shift taken in `u16` (truncated to 16 bits). -/
def Ppu.update_ppuaddr {OM : Type} (p : Ppu OM) (val : Nat) : Ppu OM :=
  { p with regs := { p.regs with addr := ((p.regs.addr <<< 8) % 0x10000) ||| val } }

/-- `Ppu::write_ppudata`: store through VRAM at the cursor, then
`self.regs.addr += self.regs.ctrl.vram_addr_increment()` in `u16`. -/
def Ppu.write_ppudata {OM : Type} (p : Ppu OM) (val : Nat) : Except PpuErr (Ppu OM) := do
  let vram2 ← p.vram.storeb p.regs.addr val
  pure { p with
    vram := vram2,
    regs := { p.regs with
      addr := (p.regs.addr + PpuCtrl.vram_addr_increment p.regs.ctrl) % 0x10000 } }

/-- `Ppu::storeb`: the CPU-bus register dispatcher.  The `debug_assert`
guards `0x2000 <= addr < 0x4000`; the register is selected by `addr & 7`. -/
def Ppu.storeb {OM : Type} (p : Ppu OM) (addr val : Nat) : Except PpuErr (Ppu OM) :=
  if 0x2000 ≤ addr ∧ addr < 0x4000 then
    match addr &&& 7 with
    | 0 => .ok { p with regs := { p.regs with ctrl := val } }
    | 1 => .ok { p with regs := { p.regs with mask := val } }
    | 2 => .ok p
    | 3 => .ok { p with regs := { p.regs with oam_addr := val } }
    | 4 => .error .unimplemented
    | 5 => .ok (p.update_ppuscroll val)
    | 6 => .ok (p.update_ppuaddr val)
    | 7 => p.write_ppudata val
    | _ => .error .canTHappen
  else .error .invalidPpuRegister

/-- A concrete CHR bank of the full `0x2000` pattern bytes, for witnesses. -/
def chr0 : List Nat := List.replicate 0x2000 0

/-- A concrete VRAM address space, for witnesses. -/
def mem0 : PpuMem := { chr := chr0, nametables := fun _ => 0, palette := fun _ => 0 }

/-- Power-on register file, for witnesses. -/
def regs0 : Regs :=
  { ctrl := 0, mask := 0, status := 0, oam_addr := 0,
    scroll := { x := 0, y := 0, next := .XDir }, addr := 0 }

/-- A concrete PPU (OAM backend instantiated at `Unit`), for witnesses. -/
def ppu0 : Ppu Unit := { regs := regs0, vram := mem0, oam := () }

/-- `PpuMem::storeb` succeeds on every input (no branch of the source
function fails). -/
theorem PpuMem.storeb_isOk (m : PpuMem) (addr val : Nat) :
    ∃ m2, m.storeb addr val = .ok m2 := by
  unfold PpuMem.storeb
  split_ifs <;> exact ⟨_, rfl⟩

/-- `x & 7` is `x mod 8`. -/
theorem and_seven_eq_mod (x : Nat) : x &&& 7 = x % 8 := by
  have h := Nat.and_pow_two_sub_one_eq_mod x 3
  norm_num at h
  exact h

/-- A `u16` left shift by 8: only the low byte of `x` survives, moved up. -/
theorem shiftLeft_eight_mod (x : Nat) : (x <<< 8) % 0x10000 = x % 256 * 256 := by
  rw [Nat.shiftLeft_eq]
  have h := Nat.mul_mod_mul_right 256 x 256
  norm_num at h ⊢
  exact h

/-- Or-ing a byte into a multiple of 256 is addition. -/
theorem mul256_lor (m v : Nat) (hv : v < 256) : (m * 256) ||| v = m * 256 + v := by
  have h := Nat.mul_add_lt_is_or (i := 8) (b := v) (by norm_num [hv] : v < 2^8) m
  norm_num [Nat.mul_comm] at h ⊢
  omega

/-- Setting (`val = true`, or with `2^n`) or clearing (`val = false`, and
with a mask `mk` whose bit `n` is its only clear bit below 8) changes exactly
bit `n` of a byte `s` and no other bit. -/
theorem setClearBit_spec (s n mk : Nat) (val : Bool) (hs : s < 256) (hn : n < 8)
    (hmk : mk < 256) (hmk_n : Nat.testBit mk n = false)
    (hmk_lo : ∀ i, i < 8 → i ≠ n → Nat.testBit mk i = true) :
    ((if val then s ||| 2^n else s &&& mk).testBit n = val) ∧
    (if val then s ||| 2^n else s &&& mk) < 256 ∧
    (∀ i, i ≠ n → (if val then s ||| 2^n else s &&& mk).testBit i = s.testBit i) := by
  have h256 : (256 : Nat) = 2^8 := by norm_num
  cases val with
  | true =>
      refine ⟨?_, ?_, ?_⟩
      · simp [Nat.testBit_lor, Nat.testBit_two_pow_self]
      · simp only [if_pos]
        rw [h256] at hs ⊢
        exact Nat.or_lt_two_pow hs (Nat.pow_lt_pow_right (by norm_num) hn)
      · intro i hi
        simp [Nat.testBit_lor, Nat.testBit_two_pow_of_ne (fun h => hi h.symm)]
  | false =>
      refine ⟨?_, ?_, ?_⟩
      · simp [Nat.testBit_and, hmk_n]
      · calc s &&& mk ≤ s := Nat.and_le_left
          _ < 256 := hs
      · intro i hi
        rcases Nat.lt_or_ge i 8 with h8 | h8
        · simp [Nat.testBit_and, hmk_lo i h8 hi]
        · have hsi : s.testBit i = false :=
            Nat.testBit_lt_two_pow
              (Nat.lt_of_lt_of_le (h256 ▸ hs) (Nat.pow_le_pow_right (by norm_num) h8))
          have hmi : mk.testBit i = false :=
            Nat.testBit_lt_two_pow
              (Nat.lt_of_lt_of_le (h256 ▸ hmk) (Nat.pow_le_pow_right (by norm_num) h8))
          simp [Nat.testBit_and, hsi, hmi]

/-- C1: a CPU-bus write to the data register (offset 7, e.g. at `0x2007`)
performs the VRAM store at the current cursor and then adds exactly
`vram_addr_increment` of the current ctrl byte to the cursor (in `u16`
arithmetic); `vram_addr_increment` is 32 exactly when bit 2 of ctrl is set,
else 0; no other register field changes (the explicit record update touches
only `vram` and `regs.addr`). -/
theorem c1_data_write_spec {OM : Type} (p : Ppu OM) (v : Nat) :
    PpuCtrl.vram_addr_increment p.regs.ctrl
      = (if Nat.testBit p.regs.ctrl 2 then 32 else 0) ∧
    p.write_ppudata v
      = (p.vram.storeb p.regs.addr v).map (fun m2 =>
          { p with
            vram := m2,
            regs := { p.regs with
              addr := (p.regs.addr + PpuCtrl.vram_addr_increment p.regs.ctrl) % 0x10000 } }) ∧
    p.storeb 0x2007 v = p.write_ppudata v := by
  refine ⟨?_, ?_, rfl⟩
  · have h4 : p.regs.ctrl &&& 4 = (Nat.testBit p.regs.ctrl 2).toNat * 4 := by
      have h := Nat.and_two_pow p.regs.ctrl 2
      norm_num at h
      exact h
    rw [PpuCtrl.vram_addr_increment, h4]
    cases htb : Nat.testBit p.regs.ctrl 2 <;> simp [htb]
  · obtain ⟨m2, hm⟩ := PpuMem.storeb_isOk p.vram p.regs.addr v
    simp only [Ppu.write_ppudata]
    rw [hm]
    rfl

/-- C2 counterexample: a VRAM store at `0x4000` does not fail — it returns
successfully with the memory unchanged (every branch of the source `if`
chain is skipped and the function silently returns). -/
theorem c2_counterexample_store_no_fail : mem0.storeb 0x4000 5 = Except.ok mem0 := rfl

/-- C2 (amended): a VRAM load at any address at or above `0x4000` fails with
`InvalidAddress`; a VRAM store there does not fail — it is a silent no-op
leaving the whole memory (nametable and palette buffers included)
unchanged. -/
theorem c2_amended_out_of_range (m : PpuMem) (a v : Nat) (h : 0x4000 ≤ a) :
    m.loadb a = .error .invalidAddress ∧ m.storeb a v = .ok m := by
  constructor <;>
    simp [PpuMem.loadb, PpuMem.storeb,
      show ¬ a < 0x2000 by omega, show ¬ a < 0x3f00 by omega, show ¬ a < 0x4000 by omega]

/-- C2 witness: the amended statement instantiated at address `0x4123`. -/
theorem c2_witness :
    0x4000 ≤ 0x4123 ∧
    (mem0.loadb 0x4123 = Except.error PpuErr.invalidAddress ∧
     mem0.storeb 0x4123 7 = Except.ok mem0) :=
  ⟨by decide, c2_amended_out_of_range mem0 0x4123 7 (by decide)⟩

/-- C3 counterexample: the 16-bit VRAM store does not fail — its body is an
empty `// TODO` stub, so it returns successfully with the memory
unchanged. -/
theorem c3_counterexample_storew_no_fail :
    mem0.storew 0x2000 0xBEEF = Except.ok mem0 := rfl

/-- C3 (amended): a CPU-bus write to the OAM-data register (offset 4) fails
with `Unimplemented` and produces no new state (no register or VRAM
mutation); the 16-bit VRAM store does not fail — it is a silent no-op that
performs no write and leaves the memory exactly as it was. -/
theorem c3_amended_unimplemented {OM : Type} (p : Ppu OM) (a v : Nat)
    (h1 : 0x2000 ≤ a) (h2 : a < 0x4000) (h3 : a &&& 7 = 4)
    (m : PpuMem) (a2 v2 : Nat) :
    p.storeb a v = .error .unimplemented ∧ m.storew a2 v2 = .ok m := by
  constructor
  · simp only [Ppu.storeb]
    rw [if_pos ⟨h1, h2⟩, h3]
  · rfl

/-- C3 witness: the amended statement at register address `0x2004`. -/
theorem c3_witness :
    ppu0.storeb 0x2004 9 = Except.error PpuErr.unimplemented ∧
    mem0.storew 0x1234 0xCD = Except.ok mem0 :=
  c3_amended_unimplemented ppu0 0x2004 9 (by decide) (by decide) (by decide) mem0 0x1234 0xCD

/-- C4: each scroll-register write stores its byte into `x` when the toggle
is `XDir` and into `y` when it is `YDir` and flips the toggle; a dispatcher
write to any other register never changes the toggle; hence from an `XDir`
start, writes 10, 20, 30, 40 yield `x=10, y=20` after two writes and
`x=30, y=40` after four, with the toggle back at `XDir` each time. -/
theorem c4_scroll_latch {OM : Type} (p : Ppu OM) (v : Nat) :
    (p.regs.scroll.next = .XDir →
       p.update_ppuscroll v = { p with regs := { p.regs with
         scroll := { x := v, y := p.regs.scroll.y, next := .YDir } } }) ∧
    (p.regs.scroll.next = .YDir →
       p.update_ppuscroll v = { p with regs := { p.regs with
         scroll := { x := p.regs.scroll.x, y := v, next := .XDir } } }) ∧
    (∀ a p2, 0x2000 ≤ a → a < 0x4000 → a &&& 7 ≠ 5 → p.storeb a v = .ok p2 →
       p2.regs.scroll.next = p.regs.scroll.next) ∧
    (p.regs.scroll.next = .XDir →
       (((p.update_ppuscroll 10).update_ppuscroll 20).regs.scroll.x = 10 ∧
        ((p.update_ppuscroll 10).update_ppuscroll 20).regs.scroll.y = 20 ∧
        ((p.update_ppuscroll 10).update_ppuscroll 20).regs.scroll.next = .XDir) ∧
       ((((p.update_ppuscroll 10).update_ppuscroll 20).update_ppuscroll 30).update_ppuscroll
           40).regs.scroll.x = 30 ∧
       ((((p.update_ppuscroll 10).update_ppuscroll 20).update_ppuscroll 30).update_ppuscroll
           40).regs.scroll.y = 40 ∧
       ((((p.update_ppuscroll 10).update_ppuscroll 20).update_ppuscroll 30).update_ppuscroll
           40).regs.scroll.next = .XDir) := by
  refine ⟨?_, ?_, ?_, ?_⟩
  · intro h
    unfold Ppu.update_ppuscroll
    rw [h]
  · intro h
    unfold Ppu.update_ppuscroll
    rw [h]
  · intro a p2 h1 h2 h5 hok
    rw [and_seven_eq_mod] at h5
    simp only [Ppu.storeb] at hok
    rw [if_pos ⟨h1, h2⟩, and_seven_eq_mod] at hok
    have h8 : a % 8 = 0 ∨ a % 8 = 1 ∨ a % 8 = 2 ∨ a % 8 = 3 ∨ a % 8 = 4 ∨
        a % 8 = 5 ∨ a % 8 = 6 ∨ a % 8 = 7 := by omega
    rcases h8 with h|h|h|h|h|h|h|h <;> rw [h] at hok <;>
      first
        | exact absurd h h5
        | (simp at hok; subst hok; rfl)
        | (simp at hok
           done)
        | (simp only [Ppu.write_ppudata] at hok
           obtain ⟨m2, hm⟩ := PpuMem.storeb_isOk p.vram p.regs.addr v
           rw [hm] at hok
           simp at hok
           subst hok
           rfl)
  · intro h
    simp [Ppu.update_ppuscroll, h]

/-- C4 witness: the four-write example run on the power-on PPU, and a write
to the OAM-address register (offset 3) leaving the toggle untouched. -/
theorem c4_witness :
    ((((ppu0.update_ppuscroll 10).update_ppuscroll 20).update_ppuscroll 30).update_ppuscroll
        40).regs.scroll.x = 30 ∧
    ((((ppu0.update_ppuscroll 10).update_ppuscroll 20).update_ppuscroll 30).update_ppuscroll
        40).regs.scroll.y = 40 ∧
    ({ regs := { regs0 with oam_addr := 99 }, vram := mem0, oam := () } : Ppu Unit).regs.scroll.next
      = ppu0.regs.scroll.next := by
  have h := c4_scroll_latch ppu0 99
  have h4 := h.2.2.2 rfl
  exact ⟨h4.2.1, h4.2.2.1, h.2.2.1 0x2003 _ (by decide) (by decide) (by decide) rfl⟩

/-- C5: an address-register write performs `addr = (addr << 8) | byte` in
`u16` arithmetic, so two consecutive writes of bytes `h` then `l` leave the
cursor at `h*256 + l`, whatever the cursor held before. -/
theorem c5_addr_latch {OM : Type} (p : Ppu OM) (h l : Nat) (hh : h < 256) (hl : l < 256) :
    (∀ (q : Ppu OM) (w : Nat), q.update_ppuaddr w
        = { q with regs := { q.regs with addr := ((q.regs.addr <<< 8) % 0x10000) ||| w } }) ∧
    ((p.update_ppuaddr h).update_ppuaddr l).regs.addr = h * 256 + l := by
  refine ⟨fun q w => rfl, ?_⟩
  have key : ∀ (a w : Nat), w < 256 → ((a <<< 8) % 0x10000) ||| w = a % 256 * 256 + w := by
    intro a w hw
    rw [shiftLeft_eight_mod, mul256_lor _ _ hw]
  simp only [Ppu.update_ppuaddr]
  rw [key p.regs.addr h hh, key _ l hl]
  omega

/-- C5 witness: writes `0x12` then `0x34` leave the cursor at `0x1234`. -/
theorem c5_witness :
    0x12 < 256 ∧ 0x34 < 256 ∧
    ((ppu0.update_ppuaddr 0x12).update_ppuaddr 0x34).regs.addr = 0x1234 :=
  ⟨by decide, by decide, (c5_addr_latch ppu0 0x12 0x34 (by decide) (by decide)).2⟩

/-- C6: register selection in the dispatcher depends only on `addr & 7` for
every address in `0x2000–0x3FFF`; in particular a write at `a` and a write
at `a + 8` (for `a` in `0x2000–0x2007`) produce identical outcomes on every
starting state. -/
theorem c6_register_mirroring {OM : Type} (p : Ppu OM) (v : Nat) :
    (∀ a1 a2, 0x2000 ≤ a1 → a1 < 0x4000 → 0x2000 ≤ a2 → a2 < 0x4000 →
        a1 &&& 7 = a2 &&& 7 → p.storeb a1 v = p.storeb a2 v) ∧
    (∀ a, 0x2000 ≤ a → a < 0x2008 → p.storeb a v = p.storeb (a + 8) v) := by
  have main : ∀ a1 a2, 0x2000 ≤ a1 → a1 < 0x4000 → 0x2000 ≤ a2 → a2 < 0x4000 →
      a1 &&& 7 = a2 &&& 7 → p.storeb a1 v = p.storeb a2 v := by
    intro a1 a2 h1 h2 h3 h4 heq
    simp only [Ppu.storeb]
    rw [if_pos ⟨h1, h2⟩, if_pos ⟨h3, h4⟩, heq]
  refine ⟨main, fun a ha1 ha2 => main a (a + 8) ha1 (by omega) (by omega) (by omega) ?_⟩
  rw [and_seven_eq_mod, and_seven_eq_mod]
  omega

/-- C6 witness: writing the (read-only) status mirror at `0x2002` and at
`0x200A` gives the same outcome on the power-on PPU. -/
theorem c6_witness : ppu0.storeb 0x2002 9 = ppu0.storeb 0x200A 9 :=
  (c6_register_mirroring ppu0 9).2 0x2002 (by decide) (by decide)

/-- C7: mirroring round-trips.  A store through any nametable-range alias
followed by a load through any other alias with the same `& 0x0FFF` offset
returns the stored byte, and likewise for the palette range with `& 0x1F`;
the spec's concrete pairs `0x2000/0x3000` and `0x3F00/0x3F20` are instances
(see the witness). -/
theorem c7_vram_mirroring (m : PpuMem) (v : Nat) :
    (∀ a1 a2, 0x2000 ≤ a1 → a1 < 0x3f00 → 0x2000 ≤ a2 → a2 < 0x3f00 →
        a1 &&& 0x0fff = a2 &&& 0x0fff →
        ∃ m2, m.storeb a1 v = .ok m2 ∧ m2.loadb a2 = .ok v) ∧
    (∀ a1 a2, 0x3f00 ≤ a1 → a1 < 0x4000 → 0x3f00 ≤ a2 → a2 < 0x4000 →
        a1 &&& 0x1f = a2 &&& 0x1f →
        ∃ m2, m.storeb a1 v = .ok m2 ∧ m2.loadb a2 = .ok v) := by
  constructor
  · intro a1 a2 h1 h2 h3 h4 heq
    refine ⟨{ m with nametables := fun i => if i = a1 &&& 0x0fff then v else m.nametables i },
      ?_, ?_⟩
    · unfold PpuMem.storeb
      rw [if_neg (show ¬ a1 < 0x2000 by omega), if_pos h2]
    · unfold PpuMem.loadb
      rw [if_neg (show ¬ a2 < 0x2000 by omega), if_pos h4]
      simp [heq]
  · intro a1 a2 h1 h2 h3 h4 heq
    refine ⟨{ m with palette := fun i => if i = a1 &&& 0x1f then v else m.palette i },
      ?_, ?_⟩
    · unfold PpuMem.storeb
      rw [if_neg (show ¬ a1 < 0x2000 by omega), if_neg (show ¬ a1 < 0x3f00 by omega),
        if_pos h2]
    · unfold PpuMem.loadb
      rw [if_neg (show ¬ a2 < 0x2000 by omega), if_neg (show ¬ a2 < 0x3f00 by omega),
        if_pos h4]
      simp [heq]

/-- C7 witness: `store(0x2000, 0xAB)` then `load(0x3000)` reads back `0xAB`,
and `store(0x3F00, 7)` then `load(0x3F20)` reads back `7`. -/
theorem c7_witness :
    (∃ m2, mem0.storeb 0x2000 0xAB = Except.ok m2 ∧ m2.loadb 0x3000 = Except.ok 0xAB) ∧
    (∃ m2, mem0.storeb 0x3f00 7 = Except.ok m2 ∧ m2.loadb 0x3f20 = Except.ok 7) :=
  ⟨(c7_vram_mirroring mem0 0xAB).1 0x2000 0x3000
      (by decide) (by decide) (by decide) (by decide) (by decide),
   (c7_vram_mirroring mem0 7).2 0x3f00 0x3f20
      (by decide) (by decide) (by decide) (by decide) (by decide)⟩

/-- C8: a store anywhere in the pattern-table range is a silent no-op — it
succeeds and returns the memory entirely unchanged, so every subsequent load
(in particular at the same address) sees the original cartridge byte, not
the written value. -/
theorem c8_pattern_store_noop (m : PpuMem) (a v : Nat) (h : a < 0x2000) :
    m.storeb a v = .ok m ∧
    (∀ m2 a2, m.storeb a v = .ok m2 → m2.loadb a2 = m.loadb a2) := by
  have h1 : m.storeb a v = .ok m := by
    unfold PpuMem.storeb
    rw [if_pos h]
  refine ⟨h1, fun m2 a2 hm2 => ?_⟩
  rw [h1] at hm2
  injection hm2 with h2
  rw [h2]

/-- C8 witness: storing 9 at `0x0000` leaves the memory unchanged and a load
there still reads the original cartridge byte 0, not 9. -/
theorem c8_witness :
    mem0.storeb 0x0000 9 = Except.ok mem0 ∧ mem0.loadb 0x0000 = Except.ok 0 := by
  have hload : mem0.loadb 0x0000 = Except.ok 0 := by
    have hc : chr0[(0:Nat)]? = some 0 := by
      rw [chr0, List.getElem?_replicate, if_pos (by norm_num)]
    unfold PpuMem.loadb
    rw [if_pos (by norm_num : (0:Nat) < 0x2000),
      show mem0.chr = chr0 from rfl, hc]
  exact ⟨(c8_pattern_store_noop mem0 0 9 (by norm_num)).1, hload⟩

/-- C9: the three `PpuStatus` mutators set (`val = true`) or clear
(`val = false`) exactly bit 5, 6 or 7 respectively, keep the result a byte,
and leave every other bit — the unmodeled bits 0–4 included — exactly as it
was. -/
theorem c9_status_mutators (s : Nat) (hs : s < 256) (val : Bool) :
    ((PpuStatus.set_sprite_overflow s val).testBit 5 = val ∧
     PpuStatus.set_sprite_overflow s val < 256 ∧
     ∀ i, i ≠ 5 → (PpuStatus.set_sprite_overflow s val).testBit i = s.testBit i) ∧
    ((PpuStatus.set_sprite_zero_hit s val).testBit 6 = val ∧
     PpuStatus.set_sprite_zero_hit s val < 256 ∧
     ∀ i, i ≠ 6 → (PpuStatus.set_sprite_zero_hit s val).testBit i = s.testBit i) ∧
    ((PpuStatus.set_in_vblank s val).testBit 7 = val ∧
     PpuStatus.set_in_vblank s val < 256 ∧
     ∀ i, i ≠ 7 → (PpuStatus.set_in_vblank s val).testBit i = s.testBit i) := by
  refine ⟨?_, ?_, ?_⟩
  · have e : PpuStatus.set_sprite_overflow s val = if val then s ||| 2^5 else s &&& 0xdf := by
      unfold PpuStatus.set_sprite_overflow
      norm_num
    rw [e]
    exact setClearBit_spec s 5 0xdf val hs (by norm_num) (by norm_num) (by decide) (by decide)
  · have e : PpuStatus.set_sprite_zero_hit s val = if val then s ||| 2^6 else s &&& 0xbf := by
      unfold PpuStatus.set_sprite_zero_hit
      norm_num
    rw [e]
    exact setClearBit_spec s 6 0xbf val hs (by norm_num) (by norm_num) (by decide) (by decide)
  · have e : PpuStatus.set_in_vblank s val = if val then s ||| 2^7 else s &&& 0x7f := by
      unfold PpuStatus.set_in_vblank
      norm_num
    rw [e]
    exact setClearBit_spec s 7 0x7f val hs (by norm_num) (by norm_num) (by decide) (by decide)

/-- C9 witness: setting sprite-overflow on status byte `0xAB` raises bit 5
and leaves bit 4 as it was. -/
theorem c9_witness :
    (PpuStatus.set_sprite_overflow 0xAB true).testBit 5 = true ∧
    (PpuStatus.set_sprite_overflow 0xAB true).testBit 4 = Nat.testBit 0xAB 4 :=
  ⟨(c9_status_mutators 0xAB (by decide) true).1.1,
   (c9_status_mutators 0xAB (by decide) true).1.2.2 4 (by decide)⟩

/-- C10: below `0x2000` a VRAM load indexes the CHR list directly, with no
bounds check of its own: every in-bounds pattern address reads the CHR byte,
every pattern address past the end of CHR is an out-of-bounds index failure,
and the whole `0x0000–0x1FFF` range is total exactly when the cartridge
supplies at least `0x2000` CHR bytes. -/
theorem c10_chr_bounds (m : PpuMem) :
    ((∀ a, a < 0x2000 → ∃ b, m.loadb a = .ok b) ↔ 0x2000 ≤ m.chr.length) ∧
    (∀ a, a < 0x2000 → a < m.chr.length → m.loadb a = .ok (m.chr.getD a 0)) ∧
    (∀ a, a < 0x2000 → m.chr.length ≤ a → m.loadb a = .error .indexOutOfBounds) := by
  have hload : ∀ a, a < 0x2000 → m.loadb a
      = (match m.chr[a]? with
         | some b => Except.ok b
         | none => Except.error .indexOutOfBounds) := by
    intro a ha
    unfold PpuMem.loadb
    rw [if_pos ha]
  have hin : ∀ a, a < 0x2000 → a < m.chr.length → m.loadb a = .ok (m.chr.getD a 0) := by
    intro a ha hlen
    rw [hload a ha, List.getD_eq_getElem?_getD, List.getElem?_eq_getElem hlen]
    rfl
  have hout : ∀ a, a < 0x2000 → m.chr.length ≤ a → m.loadb a = .error .indexOutOfBounds := by
    intro a ha hlen
    rw [hload a ha, List.getElem?_eq_none hlen]
  refine ⟨⟨?_, ?_⟩, hin, hout⟩
  · intro hall
    by_contra hlt
    push_neg at hlt
    obtain ⟨b, hb⟩ := hall m.chr.length hlt
    rw [hout m.chr.length hlt (Nat.le_refl _)] at hb
    cases hb
  · intro hlen a ha
    exact ⟨m.chr.getD a 0, hin a ha (by omega)⟩

/-- An address space whose cartridge supplies no CHR bytes at all, for the
C10 witness. -/
def memEmptyChr : PpuMem := { chr := [], nametables := fun _ => 0, palette := fun _ => 0 }

/-- C10 witness: with a full CHR bank, address 0 loads the CHR byte; with an
empty CHR bank, the very same load is an out-of-bounds index failure. -/
theorem c10_witness :
    mem0.loadb 0 = Except.ok (mem0.chr.getD 0 0) ∧
    memEmptyChr.loadb 0 = Except.error PpuErr.indexOutOfBounds :=
  ⟨(c10_chr_bounds mem0).2.1 0 (by norm_num)
      (by rw [show mem0.chr = chr0 from rfl, chr0, List.length_replicate]; norm_num),
   (c10_chr_bounds memEmptyChr).2.2 0 (by norm_num) (Nat.le_refl 0)⟩

end Sprocketnes
